import Mathlib

/-!
Verification development for the gin-form-binding library.

This file gives a shallow embedding, in Lean 4, of the Go package
ginbinding (files binder.go and types.go of the repository), and proves
properties of the embedded definitions.

Modelling conventions:
* Go reflect types are embedded as the inductive Ty below; struct types
  carry their field list (name, exportedness, anonymity, tags, type).
* Go reflect values are embedded as the inductive Val; machine integers
  are Lean Int/Nat with explicit two's-complement truncation where the
  Go code truncates (reflect SetInt / SetUint).
* Fallible Go functions returning (T, error) become Except GoErr T.
* External collaborators (the Go standard library strconv.ParseFloat,
  time.ParseDuration, time.Parse, and the gin binding engine invoked via
  ctx.BindQuery / ctx.ShouldBindHeader / ctx.ShouldBind) are not part of
  this repository; they are modelled abstractly, or from the
  specification, as noted at each definition.
-/

set_option maxHeartbeats 1000000

namespace GinBinding

/-- Errors produced by the embedded code.  Constructors mirror the
error values built in binder.go: strconv parse failures, the
fmt.Errorf wrappers, and errors surfaced by the external binding
engine. -/
inductive GoErr where
  /-- strconv.ParseInt or strconv.ParseUint failed on the given string. -/
  | numError (s : String)
  /-- invalid duration (wraps the external parser message). -/
  | invalidDuration (s : String) (inner : String)
  /-- parseBool failed: invalid boolean value. -/
  | invalidBool (s : String)
  /-- strconv.ParseFloat failed. -/
  | floatError (s : String)
  /-- invalid time format (wraps the last time.Parse error message). -/
  | invalidTimeFormat (s : String) (inner : String)
  /-- unsupported type conversion from the given string. -/
  | unsupportedConversion (s : String)
  /-- failed to parse path parameter (key) : wrapped inner error. -/
  | pathParam (key : String) (inner : GoErr)
  /-- embedded struct (name) : wrapped inner error. -/
  | embeddedStruct (name : String) (inner : GoErr)
  /-- field (name) : wrapped inner error. -/
  | fieldDefault (name : String) (inner : GoErr)
  /-- failed to convert default value (literal) for field (name). -/
  | convertDefault (lit : String) (fieldName : String) (inner : GoErr)
  /-- error returned by the external binding engine
      (ctx.BindQuery, ctx.ShouldBindHeader, ctx.ShouldBind). -/
  | external (msg : String)
deriving DecidableEq, Repr

/-- Result of a computation that can, besides succeeding or failing
with an error value, abort by a Go panic unwinding the stack.  The
reflect NumField panic is reachable in the source: registration admits
any struct-kinded parameter, and applyDefaultValues calls NumField on
every exported anonymous field (dereferenced when non-nil pointer), so
an exported embedded field of non-struct type panics.  A panic
produces no error value and the closure writes no response. -/
inductive PRes (α : Type) where
  | ok (a : α)
  | error (e : GoErr)
  | panicked
deriving Repr

mutual

/-- Embedding of the Go reflect types that can occur in a handler input
record.  The scalar constructors correspond to reflect kinds; duration
and time are the named types time.Duration (kind Int64) and time.Time
(kind Struct) which binder.go singles out via durationTy and timeTy. -/
inductive Ty where
  | string
  | int | int8 | int16 | int32 | int64
  | uint | uint8 | uint16 | uint32 | uint64
  | bool
  | float32 | float64
  | duration
  | time
  | ptr (elem : Ty)
  | strukt (fields : Fields)

/-- A list of struct fields (a separate inductive so that mutual
structural recursion over types and field lists is available). -/
inductive Fields where
  | nil
  | cons (head : Field) (tail : Fields)

/-- One struct field: its name, whether it is exported, whether it is an
anonymous (embedded) field, its tag key/value pairs, and its type. -/
inductive Field where
  | mk (name : String) (exported : Bool) (anonymous : Bool)
       (tags : List (String × String)) (ty : Ty)

end

/-- Field name projection. -/
def Field.name : Field → String
  | .mk n _ _ _ _ => n

/-- Field exportedness projection (reflect StructField.IsExported). -/
def Field.exported : Field → Bool
  | .mk _ e _ _ _ => e

/-- Field anonymity projection (reflect StructField.Anonymous). -/
def Field.anonymous : Field → Bool
  | .mk _ _ a _ _ => a

/-- Field tag projections (reflect StructTag).  Lookup of a tag key. -/
def Field.tag (f : Field) (key : String) : Option String :=
  match f with
  | .mk _ _ _ tags _ => tags.lookup key

/-- Field type projection. -/
def Field.ty : Field → Ty
  | .mk _ _ _ _ t => t

/-- Length of a field list. -/
def Fields.length : Fields → Nat
  | .nil => 0
  | .cons _ t => t.length + 1

/-- Indexing into a field list. -/
def Fields.get? : Fields → Nat → Option Field
  | .nil, _ => none
  | .cons h _, 0 => some h
  | .cons _ t, n + 1 => t.get? n

mutual

/-- Embedding of Go reflect values.  Integers of every signed kind (and
durations) are carried as Int, unsigned kinds as Nat; the stored value
is kept in range by explicit truncation at each write, mirroring
reflect SetInt / SetUint.  Floats are abstract (carried as the string
representation produced by the abstract external parser).  Time instants
are abstract naturals (0 is the zero time.Time). -/
inductive Val where
  | str (s : String)
  | int (i : Int)
  | uint (n : Nat)
  | bool (b : Bool)
  | float (repr : String)
  | time (t : Nat)
  | nil
  | ptr (v : Val)
  | strukt (vs : Vals)

/-- A list of struct field values. -/
inductive Vals where
  | nil
  | cons (head : Val) (tail : Vals)

end

/-- Length of a value list. -/
def Vals.length : Vals → Nat
  | .nil => 0
  | .cons _ t => t.length + 1

/-- Indexing into a value list. -/
def Vals.get? : Vals → Nat → Option Val
  | .nil, _ => none
  | .cons h _, 0 => some h
  | .cons _ t, n + 1 => t.get? n

mutual

/-- The zero value of a type (reflect.Zero): empty string, 0, false,
the zero time, a nil pointer, and for a struct the struct of zero
values of its fields. -/
def zeroVal : Ty → Val
  | .string => .str ""
  | .int | .int8 | .int16 | .int32 | .int64 => .int 0
  | .uint | .uint8 | .uint16 | .uint32 | .uint64 => .uint 0
  | .bool => .bool false
  | .float32 | .float64 => .float "0"
  | .duration => .int 0
  | .time => .time 0
  | .ptr _ => .nil
  | .strukt fs => .strukt (zeroVals fs)

/-- Zero values of a field list. -/
def zeroVals : Fields → Vals
  | .nil => .nil
  | .cons (.mk _ _ _ _ fty) t => .cons (zeroVal fty) (zeroVals t)

end

mutual

/-- Embedding of reflect Value.IsZero: a value is zero when it equals
the zero value of its type.  A struct is zero when all its fields are. -/
def isZero : Val → Bool
  | .str s => s == ""
  | .int i => i == 0
  | .uint n => n == 0
  | .bool b => b == false
  | .float r => r == "0"
  | .time t => t == 0
  | .nil => true
  | .ptr _ => false
  | .strukt vs => isZeroVals vs

/-- All values in the list are zero. -/
def isZeroVals : Vals → Bool
  | .nil => true
  | .cons v t => isZero v && isZeroVals t

end

/-- Reflect kinds, used to mirror the kind switch in stringToVal. -/
inductive Kind where
  | stringK
  | intK | int8K | int16K | int32K | int64K
  | uintK | uint8K | uint16K | uint32K | uint64K
  | boolK
  | float32K | float64K
  | ptrK
  | structK
deriving DecidableEq, Repr

/-- The reflect kind of a type.  time.Duration has kind Int64 and
time.Time has kind Struct, exactly as in Go. -/
def tyKind : Ty → Kind
  | .string => .stringK
  | .int => .intK
  | .int8 => .int8K
  | .int16 => .int16K
  | .int32 => .int32K
  | .int64 => .int64K
  | .uint => .uintK
  | .uint8 => .uint8K
  | .uint16 => .uint16K
  | .uint32 => .uint32K
  | .uint64 => .uint64K
  | .bool => .boolK
  | .float32 => .float32K
  | .float64 => .float64K
  | .duration => .int64K
  | .time => .structK
  | .ptr _ => .ptrK
  | .strukt _ => .structK

/-- Whether the type is exactly time.Duration (the durationTy test in
binder.go). -/
def isDurationTy : Ty → Bool
  | .duration => true
  | _ => false

/-- Whether the type is exactly time.Time (the timeTy test). -/
def isTimeTy : Ty → Bool
  | .time => true
  | _ => false

/-- Embedding of strTy.ConvertibleTo(ty): within this type universe the
Go string type converts only to string-kinded types. -/
def strConvertibleTo : Ty → Bool
  | .string => true
  | _ => false

/-- The bit width that reflect SetInt / SetUint truncates to for each
integer kind.  The Go int and uint are 64-bit on the supported
platforms. -/
def kindWidth : Kind → Nat
  | .int8K | .uint8K => 8
  | .int16K | .uint16K => 16
  | .int32K | .uint32K => 32
  | _ => 64

/-- Two's-complement truncation of an Int to a signed width, mirroring
the silent conversion performed by reflect Value.SetInt. -/
def setIntTrunc (w : Nat) (x : Int) : Int :=
  let m := x.emod (2 ^ w)
  if m < 2 ^ (w - 1) then m else m - 2 ^ w

/-- Truncation of a Nat to an unsigned width, mirroring reflect
Value.SetUint. -/
def setUintTrunc (w : Nat) (x : Nat) : Nat :=
  x % 2 ^ w

/-- The numeric value of a list of decimal digit characters; none if
the list is empty or contains a non-digit. -/
def digitsVal : List Char → Option Nat
  | [] => none
  | cs => cs.foldl
      (fun acc c =>
        match acc with
        | none => none
        | some n => if c.isDigit then some (n * 10 + (c.toNat - 48)) else none)
      (some 0)

/-- Embedding of strconv.ParseUint(s, 10, 64): decimal digits only, no
sign, result below 2 to the 64.  Returns none exactly when Go returns a
non-nil error. -/
def goParseUint64 (s : String) : Option Nat :=
  match digitsVal s.data with
  | none => none
  | some n => if n < 2 ^ 64 then some n else none

/-- Embedding of strconv.ParseInt(s, 10, 64): an optional single sign
followed by decimal digits, result within the int64 range.  Returns
none exactly when Go returns a non-nil error. -/
def goParseInt64 (s : String) : Option Int :=
  match s.data with
  | [] => none
  | c :: rest =>
    let signed : Bool × List Char :=
      if c = '-' then (true, rest)
      else if c = '+' then (false, rest)
      else (false, c :: rest)
    match digitsVal signed.2 with
    | none => none
    | some n =>
      if signed.1 then
        if (n : Int) ≤ 2 ^ 63 then some (-(n : Int)) else none
      else
        if (n : Int) < 2 ^ 63 then some (n : Int) else none

/-- ASCII whitespace, as trimmed by the strings.TrimSpace call in
parseBool. -/
def isSpaceChar (c : Char) : Bool :=
  c = ' ' || c = '\t' || c = '\n' || c = '\r' || c = '\x0b' || c = '\x0c'

/-- Model of strings.TrimSpace composed with strings.ToLower as used by
parseBool.  ASCII coverage suffices here: every literal the comparison
can accept is ASCII. -/
def trimLower (s : String) : String :=
  ⟨(((s.data.dropWhile isSpaceChar).reverse.dropWhile isSpaceChar).reverse).map
      Char.toLower⟩

/-- Embedding of parseBool from binder.go: trimmed, lowercased match
against the eight accepted literals. -/
def parseBool (s : String) : Except GoErr Bool :=
  let t := trimLower s
  if t = "true" ∨ t = "1" ∨ t = "yes" ∨ t = "on" then .ok true
  else if t = "false" ∨ t = "0" ∨ t = "no" ∨ t = "off" then .ok false
  else .error (.invalidBool s)

/-- Abstract interfaces to the Go standard library parsers that
binder.go calls but that are external to this repository.
time.Parse is a function of a layout string and an input; its result is
an abstract instant.  strconv.ParseFloat and time.ParseDuration are
likewise abstract.  Modelled from the spec: these are the host grammar
parsers of section 4.3 (duration grammar, decimal float grammar,
timestamp layouts). -/
structure Externals where
  parseDuration : String → Except String Int
  parseFloat : String → Except String String
  timeParse : String → String → Except String Nat

/-- The ordered layout list tried for time.Time targets, copied from
the timeFormats literal in binder.go (time.RFC3339 and
time.RFC3339Nano written out). -/
def timeFormats : List String :=
  ["2006-01-02T15:04:05Z07:00",
   "2006-01-02T15:04:05.999999999Z07:00",
   "2006-01-02 15:04:05",
   "2006-01-02T15:04:05Z",
   "2006-01-02T15:04:05.000Z",
   "2006-01-02",
   "15:04:05"]

/-- Embedding of the format loop in stringToVal: try each layout in
order, break on the first success; when every layout fails the loop
leaves the error of the last layout.  The empty-list result is the
zero instant with no error, matching a loop whose body never ran
(unreachable: the call site passes the non-empty timeFormats). -/
def tryTimeFormats (ext : Externals) (s : String) : List String → Except String Nat
  | [] => .ok 0
  | fmt :: rest =>
    match ext.timeParse fmt s with
    | .ok t => .ok t
    | .error e =>
      match rest with
      | [] => .error e
      | _ :: _ => tryTimeFormats ext s rest

/-- Embedding of stringToVal from binder.go.  The branch structure
follows the source line by line: the empty-string early return, the
ConvertibleTo fast path, then the switch on the reflect kind with the
durationTy test inside the signed-integer case and the timeTy test in
the default case.  Note that the signed-integer case lists exactly the
kinds named in the source (Int, Int8, Int32, Int64 - Int16 is absent
there), and that integer parsing uses bit size 64 followed by the
truncating SetInt / SetUint write. -/
def stringToVal (ext : Externals) (s : String) (ty : Ty) : Except GoErr Val :=
  if s = "" then .ok (zeroVal ty)
  else if strConvertibleTo ty then .ok (.str s)
  else
    match tyKind ty with
    | .stringK => .ok (.str s)
    | .intK | .int8K | .int32K | .int64K =>
      if isDurationTy ty then
        match ext.parseDuration s with
        | .error e => .error (.invalidDuration s e)
        | .ok d => .ok (.int d)
      else
        match goParseInt64 s with
        | none => .error (.numError s)
        | some i => .ok (.int (setIntTrunc (kindWidth (tyKind ty)) i))
    | .uintK | .uint8K | .uint16K | .uint32K | .uint64K =>
      match goParseUint64 s with
      | none => .error (.numError s)
      | some n => .ok (.uint (setUintTrunc (kindWidth (tyKind ty)) n))
    | .boolK =>
      match parseBool s with
      | .error e => .error e
      | .ok b => .ok (.bool b)
    | .float32K | .float64K =>
      match ext.parseFloat s with
      | .error _ => .error (.floatError s)
      | .ok r => .ok (.float r)
    | _ =>
      if isTimeTy ty then
        match tryTimeFormats ext s timeFormats with
        | .error e => .error (.invalidTimeFormat s e)
        | .ok t => .ok (.time t)
      else .error (.unsupportedConversion s)

/-- Embedding of setDefaultValue from binder.go: a nil pointer field is
allocated by building the default on a fresh zero pointee and wrapping
it; a non-nil pointer is returned unchanged; any other type is set
from stringToVal applied to the default literal, with conversion
failures wrapped in the failed-to-convert-default error. -/
def setDefaultValue (ext : Externals) (v : Val) (ty : Ty) (defaultValue : String)
    (fieldName : String) : Except GoErr Val :=
  match ty with
  | .ptr elemTy =>
    match v with
    | .nil =>
      match setDefaultValue ext (zeroVal elemTy) elemTy defaultValue fieldName with
      | .error e => .error e
      | .ok w => .ok (.ptr w)
    | _ => .ok v
  | _ =>
    match stringToVal ext defaultValue ty with
    | .error e => .error (.convertDefault defaultValue fieldName e)
    | .ok w => .ok w

mutual

/-- Embedding of applyDefaultValues from binder.go, iterating a struct
type and value in lockstep.  Unexported fields are skipped.  Anonymous
(embedded) fields: a nil embedded pointer is skipped without
allocation (the source comment says pointer is nil, skip processing); a
non-nil embedded pointer is dereferenced; then the embedded struct is
processed recursively, errors wrapped with the embedded-struct prefix.
Regular fields: when a default tag is present and the current value is
zero, the field is set via setDefaultValue, errors wrapped with the
field prefix.  A panic propagates unwrapped. -/
def applyDefaultValues (ext : Externals) (fs : Fields) (vs : Vals) :
    PRes Vals :=
  match fs, vs with
  | .nil, _ => .ok vs
  | .cons _ _, .nil => .ok .nil
  | .cons f ft, .cons v vt =>
    match applyDefaultField ext f v with
    | .panicked => .panicked
    | .error e => .error e
    | .ok v2 =>
      match applyDefaultValues ext ft vt with
      | .panicked => .panicked
      | .error e => .error e
      | .ok vt2 => .ok (.cons v2 vt2)

/-- Processing of one field by applyDefaultValues.  An exported
anonymous field whose (dereferenced) type is not a struct makes the
recursive call apply NumField to a non-struct value: that is the
reflect panic, modelled as the panicked outcome.  It is reachable,
since registration only checks that the handler parameter itself is a
struct. -/
def applyDefaultField (ext : Externals) (f : Field) (v : Val) :
    PRes Val :=
  match f with
  | .mk name exported anonymous tags fty =>
    if exported = false then .ok v
    else if anonymous then
      match fty, v with
      | .ptr _, .nil => .ok v
      | .ptr (.strukt innerFs), .ptr (.strukt innerVs) =>
        match applyDefaultValues ext innerFs innerVs with
        | .panicked => .panicked
        | .error e => .error (.embeddedStruct name e)
        | .ok innerVs2 => .ok (.ptr (.strukt innerVs2))
      | .strukt innerFs, .strukt innerVs =>
        match applyDefaultValues ext innerFs innerVs with
        | .panicked => .panicked
        | .error e => .error (.embeddedStruct name e)
        | .ok innerVs2 => .ok (.strukt innerVs2)
      | _, _ => .panicked
    else
      match tags.lookup "default" with
      | none => .ok v
      | some defaultValue =>
        if isZero v = false then .ok v
        else
          match setDefaultValue ext v fty defaultValue name with
          | .error e => .error (.fieldDefault name e)
          | .ok v2 => .ok v2

end

/-- The per-request data reachable through the gin context, together
with the abstract external machinery.  param models ctx.Param (absent
segments give the empty string); query, headers and body model the
request data consumed by the external binding engine; extCoerce models
the string-to-field setter inside gin used by its query and header
binders.  body is the result of parsing the raw body: an error for a
malformed payload, otherwise a finite map from body keys to decoded
values. -/
structure Ctx where
  param : String → String
  query : List (String × String)
  headers : List (String × String)
  body : Except String (List (String × Val))
  ext : Externals
  extCoerce : String → Ty → Except String Val

/-- Number of exported fields carrying a header tag, as counted by the
loop in bindingFormValue (top-level fields only, unexported fields
skipped before the tag lookups). -/
def headerTagsNum : Fields → Nat
  | .nil => 0
  | .cons f t =>
    (if f.exported && (f.tag "header").isSome then 1 else 0) + headerTagsNum t

/-- Number of exported fields carrying a form tag, as counted by the
loop in bindingFormValue. -/
def formTagsNum : Fields → Nat
  | .nil => 0
  | .cons f t =>
    (if f.exported && (f.tag "form").isSome then 1 else 0) + formTagsNum t

/-- Embedding of the first loop of bindingFormValue: walk the fields in
order; skip unexported fields entirely; bind every path-tagged field
from ctx.Param through stringToVal, aborting on the first conversion
failure with the failed-to-parse-path-parameter wrapper; count header
and form tags along the way. -/
def bindPathLoop (ctx : Ctx) (fs : Fields) (vs : Vals) :
    Except GoErr (Vals × Nat × Nat) :=
  match fs, vs with
  | .nil, _ => .ok (vs, 0, 0)
  | .cons _ _, .nil => .ok (.nil, 0, 0)
  | .cons (.mk _ exported _ tags fty) ft, .cons v vt =>
    if exported = false then
      match bindPathLoop ctx ft vt with
      | .error e => .error e
      | .ok (vt2, hN, fN) => .ok (.cons v vt2, hN, fN)
    else
      match
        (match tags.lookup "path" with
         | some key =>
           match stringToVal ctx.ext (ctx.param key) fty with
           | .error e => .error (.pathParam key e)
           | .ok w => .ok w
         | none => .ok v : Except GoErr Val)
      with
      | .error e => .error e
      | .ok v2 =>
        match bindPathLoop ctx ft vt with
        | .error e => .error e
        | .ok (vt2, hN, fN) =>
          .ok (.cons v2 vt2,
               hN + (if (tags.lookup "header").isSome then 1 else 0),
               fN + (if (tags.lookup "form").isSome then 1 else 0))

mutual

/-- Modelled from the spec: the external gin binders ctx.BindQuery and
ctx.ShouldBindHeader are not part of this repository.  Following
section 4.1 (source-kind precedence) and 4.2 (stages) of the
specification, a stage binds exactly the fields of its kind: a field is
skipped when a higher-precedence source tag (listed in higher) is
present; a field carrying the stage tag is set from the source list
when its key is present, through the engine coercer; embedded
(anonymous) record fields without source tags are flattened, recursing
through a non-nil pointer and leaving a nil pointer untouched. -/
def bindSourceVals (coerce : String → Ty → Except String Val)
    (src : List (String × String)) (tagKey : String) (higher : List String)
    (fs : Fields) (vs : Vals) : Except GoErr Vals :=
  match fs, vs with
  | .nil, _ => .ok vs
  | .cons _ _, .nil => .ok .nil
  | .cons f ft, .cons v vt =>
    match bindSourceField coerce src tagKey higher f v with
    | .error e => .error e
    | .ok v2 =>
      match bindSourceVals coerce src tagKey higher ft vt with
      | .error e => .error e
      | .ok vt2 => .ok (.cons v2 vt2)

/-- Processing of one field by a key/value source stage. -/
def bindSourceField (coerce : String → Ty → Except String Val)
    (src : List (String × String)) (tagKey : String) (higher : List String)
    (f : Field) (v : Val) : Except GoErr Val :=
  match f with
  | .mk _ exported anonymous tags fty =>
    if exported = false then .ok v
    else if higher.any (fun k => (tags.lookup k).isSome) then .ok v
    else
      match tags.lookup tagKey with
      | some key =>
        match src.lookup key with
        | none => .ok v
        | some s =>
          match coerce s fty with
          | .error m => .error (.external m)
          | .ok w => .ok w
      | none =>
        if anonymous then bindSourceEmbedded coerce src tagKey higher fty v
        else .ok v

/-- Flattening of an embedded record by a key/value source stage:
recurse through the record, or through a non-nil pointer to it; leave a
nil pointer or a non-record value untouched. -/
def bindSourceEmbedded (coerce : String → Ty → Except String Val)
    (src : List (String × String)) (tagKey : String) (higher : List String)
    (fty : Ty) (v : Val) : Except GoErr Val :=
  match fty, v with
  | .strukt innerFs, .strukt innerVs =>
    match bindSourceVals coerce src tagKey higher innerFs innerVs with
    | .error e => .error e
    | .ok innerVs2 => .ok (.strukt innerVs2)
  | .ptr (.strukt _), .nil => .ok v
  | .ptr (.strukt innerFs), .ptr (.strukt innerVs) =>
    match bindSourceVals coerce src tagKey higher innerFs innerVs with
    | .error e => .error e
    | .ok innerVs2 => .ok (.ptr (.strukt innerVs2))
  | _, _ => .ok v

end

/-- Modelled from the spec: the external binder ctx.ShouldBind parses
the structured body and sets the Body-kind fields, that is the exported
fields without a path, header or form tag; the body key is the json
tag, with the field name as fallback; embedded record fields without a
json tag are flattened against the same document, through a non-nil
pointer, a nil pointer left untouched. -/
def bindBodyVals (doc : List (String × Val)) (fs : Fields) (vs : Vals) : Vals :=
  match fs, vs with
  | .nil, _ => vs
  | .cons _ _, .nil => .nil
  | .cons (.mk name exported anonymous tags fty) ft, .cons v vt =>
    let v2 : Val :=
      if exported = false then v
      else if (tags.lookup "path").isSome || (tags.lookup "header").isSome ||
              (tags.lookup "form").isSome then v
      else if anonymous && (tags.lookup "json") = none then
        match fty, v with
        | .strukt innerFs, .strukt innerVs =>
          .strukt (bindBodyVals doc innerFs innerVs)
        | .ptr (.strukt _), .nil => v
        | .ptr (.strukt innerFs), .ptr (.strukt innerVs) =>
          .ptr (.strukt (bindBodyVals doc innerFs innerVs))
        | _, _ => v
      else
        match doc.lookup ((tags.lookup "json").getD name) with
        | some w => w
        | none => v
    .cons v2 (bindBodyVals doc ft vt)

/-- The stages of bindingFormValue, in the order the source executes
them; an element is recorded each time the corresponding call is
made. -/
inductive Stage where
  | path | query | header | body | defaults
deriving DecidableEq, Repr

/-- The unconditional body bind (ctx.ShouldBind is called regardless of
tags): a body parse failure is the stage error, otherwise the Body-kind
fields are bound. -/
def bodyStage (ctx : Ctx) (fs : Fields) (vs : Vals) :
    Except GoErr Vals × List Stage :=
  match ctx.body with
  | .error m => (.error (.external m), [.body])
  | .ok doc => (.ok (bindBodyVals doc fs vs), [.body])

/-- The header stage and onward: ctx.ShouldBindHeader is called only
when headerTagsNum is positive, then the body stage runs. -/
def headerOnward (ctx : Ctx) (fs : Fields) (vs : Vals) (hN : Nat) :
    Except GoErr Vals × List Stage :=
  if hN > 0 then
    match bindSourceVals ctx.extCoerce ctx.headers "header" ["path"] fs vs with
    | .error e => (.error e, [.header])
    | .ok vs2 =>
      let r := bodyStage ctx fs vs2
      (r.1, .header :: r.2)
  else bodyStage ctx fs vs

/-- The query stage and onward: ctx.BindQuery is called only when
formTagsNum is positive, then header and body. -/
def queryOnward (ctx : Ctx) (fs : Fields) (vs : Vals) (hN fN : Nat) :
    Except GoErr Vals × List Stage :=
  if fN > 0 then
    match bindSourceVals ctx.extCoerce ctx.query "form" ["path", "header"] fs vs with
    | .error e => (.error e, [.query])
    | .ok vs2 =>
      let r := headerOnward ctx fs vs2 hN
      (r.1, .query :: r.2)
  else headerOnward ctx fs vs hN

/-- The four source stages of bindingFormValue on a struct type, before
default application: the path loop, then query, header and body under
their trigger conditions, threading the partially bound value and
recording which stages ran. -/
def decodeStages (ctx : Ctx) (fs : Fields) :
    Except GoErr Vals × List Stage :=
  match bindPathLoop ctx fs (zeroVals fs) with
  | .error e => (.error e, [.path])
  | .ok (vs, hN, fN) =>
    let r := queryOnward ctx fs vs hN fN
    (r.1, .path :: r.2)

/-- Embedding of bindingFormValue from binder.go: a pointer type
recurses and wraps the result in a fresh allocation; a struct type runs
the four source stages and, when they all succeed, applies the default
values, any default error failing the decode and any panic during
default application unwinding.  A non-struct, non-pointer type would
make the reflect NumField call in the field loop panic at once (this
top-level case is unreachable: registration admits only structs and
pointers to structs as the handler parameter). -/
def bindingFormValue (ctx : Ctx) (ty : Ty) : PRes Val × List Stage :=
  match ty with
  | .ptr elemTy =>
    let r := bindingFormValue ctx elemTy
    (match r.1 with
     | .panicked => .panicked
     | .error e => .error e
     | .ok v => .ok (.ptr v), r.2)
  | .strukt fs =>
    let r := decodeStages ctx fs
    match r.1 with
    | .error e => (.error e, r.2)
    | .ok vs =>
      match applyDefaultValues ctx.ext fs vs with
      | .panicked => (.panicked, r.2 ++ [.defaults])
      | .error e => (.error e, r.2 ++ [.defaults])
      | .ok vs2 => (.ok (.strukt vs2), r.2 ++ [.defaults])
  | _ => (.panicked, [])

/-- The Error() string of a GoErr.  The leaf messages approximate the
Go standard library texts; the wrapper constructors reproduce the
fmt.Errorf formats of binder.go.  No claim depends on the precise leaf
texts, only on messages being propagated unchanged. -/
def goErrMsg : GoErr → String
  | .numError s => "strconv: parsing \"" ++ s ++ "\": invalid syntax"
  | .invalidDuration s inner => "invalid duration \"" ++ s ++ "\": " ++ inner
  | .invalidBool s => "invalid boolean value: " ++ s
  | .floatError s => "strconv.ParseFloat: parsing \"" ++ s ++ "\": invalid syntax"
  | .invalidTimeFormat s inner => "invalid time format \"" ++ s ++ "\": " ++ inner
  | .unsupportedConversion s => "unsupported type conversion from \"" ++ s ++ "\""
  | .pathParam key inner =>
    "failed to parse path parameter \"" ++ key ++ "\": " ++ goErrMsg inner
  | .embeddedStruct name inner => "embedded struct " ++ name ++ ": " ++ goErrMsg inner
  | .fieldDefault name inner => "field " ++ name ++ ": " ++ goErrMsg inner
  | .convertDefault lit fieldName inner =>
    "failed to convert default value \"" ++ lit ++ "\" for field " ++ fieldName ++
      ": " ++ goErrMsg inner
  | .external msg => msg

/-- An error value as seen by the response handler: either a
BindingError wrapper (built by the closure around a binding failure, as
in types.go) or any other error, identified by its Error() string. -/
inductive RespErr where
  | bindingError (inner : GoErr)
  | plain (msg : String)
deriving DecidableEq, Repr

/-- The Error() string of a response-level error; for a BindingError
this is the wrapped error's message (types.go Error delegates to
e.Err.Error()). -/
def respErrMsg : RespErr → String
  | .bindingError inner => goErrMsg inner
  | .plain msg => msg

/-- Embedding of DefaultResponseHandler.HandleError from types.go:
the HTTP status code and the JSON object written by ctx.JSON.  A
BindingError gets status 400 with its message; otherwise the message
string selects 404, 401 or 403 for the three recognized texts and 500
by default; the body always carries status error and the message. -/
def handleErrorResp (err : RespErr) : Nat × List (String × String) :=
  match err with
  | .bindingError inner =>
    (400, [("status", "error"), ("message", goErrMsg inner)])
  | .plain msg =>
    let statusCode :=
      if msg = "record not found" then 404
      else if msg = "unauthorized" then 401
      else if msg = "forbidden" then 403
      else 500
    (statusCode, [("status", "error"), ("message", msg)])

/-- A call made on the response handler interface: HandleError with an
error, or HandleSuccess with optional data. -/
inductive RespEvent where
  | errorCall (e : RespErr)
  | successCall (d : Option Val)

/-- The reflect type of one handler parameter: either a pointer to
gin.Context or an ordinary value type of the embedded universe. -/
inductive ParamTy where
  | ctxPtr
  | val (t : Ty)

/-- Whether a parameter is a pointer to gin.Context (the In(0) check). -/
def ParamTy.isCtxPtr : ParamTy → Bool
  | .ctxPtr => true
  | _ => false

/-- Whether a parameter is a struct or a pointer to a struct (the In(1)
check). -/
def ParamTy.isStructLike : ParamTy → Bool
  | .val (.strukt _) => true
  | .val (.ptr (.strukt _)) => true
  | _ => false

/-- The record type bound for the second parameter, when it is
struct-like. -/
def ParamTy.recordTy : ParamTy → Option Ty
  | .val t => some t
  | .ctxPtr => none

/-- A handler return type, abstracted to whether it implements the
error interface (the Out checks only test Implements(errTy)). -/
inductive RetTy where
  | errLike
  | nonErr
deriving DecidableEq, Repr

/-- Whether a return type implements error. -/
def RetTy.isErr : RetTy → Bool
  | .errLike => true
  | _ => false

/-- The reflect view of the candidate handler given to
FormBindingGinHandlerFunc: whether the value is a function at all, and
if so its parameter and result types. -/
structure FuncVal where
  isFunc : Bool
  params : List ParamTy
  results : List RetTy

/-- Embedding of the registration-time checks of
FormBindingGinHandlerFunc (binder.go lines 52 to 106): the error
message returned for a rejected candidate, or none when the closure is
built.  The checks run in source order and inspect only the call
shape. -/
def checkHandlerShape (f : FuncVal) : Option String :=
  if f.isFunc = false then some "input must be a function"
  else
    let inNum := f.params.length
    let outNum := f.results.length
    if inNum = 0 then some "function must have at least one parameter"
    else if inNum > 2 then some "function can have at most 2 parameters"
    else if outNum = 0 then some "function must have at least one return value"
    else if outNum > 2 then some "function can have at most 2 return values"
    else if (match f.params.get? 0 with
             | some p => p.isCtxPtr
             | none => false) = false then
      some "first parameter must be *gin.Context"
    else if (if inNum = 2 then
               match f.params.get? 1 with
               | some p => p.isStructLike
               | none => false
             else true) = false then
      some "second parameter must be a struct or pointer to struct"
    else if (if outNum = 1 then
               match f.results.get? 0 with
               | some r => r.isErr
               | none => false
             else true) = false then
      some "single return value must be error"
    else if (if outNum = 2 then
               match f.results.get? 1 with
               | some r => r.isErr
               | none => false
             else true) = false then
      some "second return value must be error"
    else none

/-- The final call of the closure: invoke the business handler and
normalize its outputs.  With one declared output the single value is
the error and success carries no data; with two outputs the second
value is the error and success carries the first.  The business
handler is modelled as a function from the optional bound record to
its (value, error) pair.  The Bool records that the handler was
invoked. -/
def invokeBusiness (twoOutputs : Bool)
    (handler : Option Val → Val × Option RespErr) (arg : Option Val) :
    List RespEvent × Bool :=
  let out := handler arg
  if twoOutputs then
    match out.2 with
    | some e => ([.errorCall e], true)
    | none => ([.successCall (some out.1)], true)
  else
    match out.2 with
    | some e => ([.errorCall e], true)
    | none => ([.successCall none], true)

/-- Embedding of the request-time closure returned by
FormBindingGinHandlerFunc (binder.go lines 110 to 150): when the
handler declares a record parameter, bind it (a failure is wrapped in
BindingError and reported, and nothing further runs; a reflect panic
during binding or default application unwinds through the closure, so
no response-handler call is made at all and the result is none), then
run the configured validator if any (a failure is reported unchanged
and the handler is not called), then invoke the business handler and
report its outcome.  On the non-panicking paths the result lists the
calls made on the response handler and whether the business handler
was invoked. -/
def runClosure (hasRecordParam twoOutputs : Bool) (ctx : Ctx) (recordTy : Ty)
    (validator : Option (Val → Option RespErr))
    (handler : Option Val → Val × Option RespErr) :
    Option (List RespEvent × Bool) :=
  if hasRecordParam then
    match (bindingFormValue ctx recordTy).1 with
    | .panicked => none
    | .error err => some ([.errorCall (.bindingError err)], false)
    | .ok form =>
      match validator with
      | some validate =>
        match validate form with
        | some verr => some ([.errorCall verr], false)
        | none => some (invokeBusiness twoOutputs handler (some form))
      | none => some (invokeBusiness twoOutputs handler (some form))
  else some (invokeBusiness twoOutputs handler none)

/-! Concrete fixtures used by witnesses and counterexamples. -/

/-- A trivial instantiation of the abstract external parsers: every
external parse fails.  The claims exercised with it never reach the
external parsers. -/
def extTrivial : Externals :=
  { parseDuration := fun _ => .error "unparsed duration"
    parseFloat := fun _ => .error "unparsed float"
    timeParse := fun _ _ => .error "unparsed time" }

/-- An engine coercer for fixtures: delegate to the embedded
stringToVal (the precise engine behavior is irrelevant to the claims
exercised with it). -/
def coerceTrivial : String → Ty → Except String Val := fun s ty =>
  match stringToVal extTrivial s ty with
  | .ok v => .ok v
  | .error e => .error (goErrMsg e)

/-- External parsers whose time parser accepts exactly the date-only
layout, used to exercise the ordered-format fallback. -/
def extDateOnly : Externals :=
  { parseDuration := fun _ => .error "unparsed duration"
    parseFloat := fun _ => .error "unparsed float"
    timeParse := fun fmt _ =>
      if fmt = "2006-01-02" then .ok 42 else .error "wrong layout" }

/-- A request with one query parameter page set to 3, an empty parsed
body and no path segments or headers. -/
def ctxPage3 : Ctx :=
  { param := fun _ => ""
    query := [("page", "3")]
    headers := []
    body := .ok []
    ext := extTrivial
    extCoerce := coerceTrivial }

/-- A request whose every path segment reads x, with an empty parsed
body. -/
def ctxPathX : Ctx :=
  { param := fun _ => "x"
    query := []
    headers := []
    body := .ok []
    ext := extTrivial
    extCoerce := coerceTrivial }

/-- The one-field record of the embedded Pagination example: an
exported Page int field bound from the page query parameter. -/
def pageFields : Fields :=
  .cons (.mk "Page" true false [("form", "page")] .int) .nil

/-- A record embedding the Pagination record anonymously - the form
tag lives only inside the embedded record. -/
def embedPageFields : Fields :=
  .cons (.mk "Pagination" true true [] (.strukt pageFields)) .nil

/-- A one-field record whose Page int field has a default of 1. -/
def pageDefFields : Fields :=
  .cons (.mk "Page" true false [("json", "page"), ("default", "1")] .int) .nil

/-- A record with a path tag on an unsupported (struct) field type. -/
def blobPathFields : Fields :=
  .cons (.mk "Blob" true false [("path", "id")] (.strukt .nil)) .nil

/-- The reflect view of a handler func taking a gin context pointer and
the blobPathFields record and returning an error. -/
def blobHandlerFunc : FuncVal :=
  { isFunc := true
    params := [.ctxPtr, .val (.strukt blobPathFields)]
    results := [.errLike] }

/-- Specification-side description of the timestamp coercion, written
from the claim text: try the layouts in order and return the value of
the first layout that parses, or none when none parse.  Used only to
compare the implementation loop against the claim. -/
def specTimeFirstMatch (ext : Externals) (s : String) :
    List String → Option Nat
  | [] => none
  | fmt :: rest =>
    match ext.timeParse fmt s with
    | .ok t => some t
    | .error _ => specTimeFirstMatch ext s rest

/-- A three-field record exercising default application: a string with
a default and a zero value, an int without a default, and a nil bool
pointer with a default. -/
def defaultsFields : Fields :=
  .cons (.mk "Name" true false [("json", "name"), ("default", "John")] .string)
    (.cons (.mk "Age" true false [("json", "age")] .int)
      (.cons (.mk "Act" true false [("default", "true")] (.ptr .bool)) .nil))

/-- Input values for defaultsFields: empty name, explicit age 7, nil
pointer. -/
def defaultsVsIn : Vals :=
  .cons (.str "") (.cons (.int 7) (.cons .nil .nil))

/-- Expected output values for defaultsFields: defaulted name,
untouched age, allocated pointer to true. -/
def defaultsVsOut : Vals :=
  .cons (.str "John") (.cons (.int 7) (.cons (.ptr (.bool true)) .nil))

/-- A two-field record with one query-bound and one header-bound
field. -/
def qhFields : Fields :=
  .cons (.mk "Page" true false [("form", "page")] .int)
    (.cons (.mk "Token" true false [("header", "X-Token")] .string) .nil)

/-- A request carrying the page query parameter and the X-Token
header, with an empty parsed body. -/
def ctxQH : Ctx :=
  { param := fun _ => ""
    query := [("page", "3")]
    headers := [("X-Token", "t")]
    body := .ok []
    ext := extTrivial
    extCoerce := coerceTrivial }

/-- A record with a path-bound int field and a body-bound string
field. -/
def idNameFields : Fields :=
  .cons (.mk "ID" true false [("path", "id")] .int)
    (.cons (.mk "Name" true false [("json", "name")] .string) .nil)

/-- A request with path segment id set to 7 and a body naming Bob. -/
def ctxIdName : Ctx :=
  { param := fun k => if k = "id" then "7" else ""
    query := []
    headers := []
    body := .ok [("name", .str "Bob")]
    ext := extTrivial
    extCoerce := coerceTrivial }

/-- A record whose only field is an exported embedded (anonymous)
field of a non-struct type, as in a handler taking struct embedding a
named int type.  Registration admits it; default application panics on
it. -/
def embedIntFields : Fields :=
  .cons (.mk "MyInt" true true [] .int) .nil

/-- A one-field record whose ID int field is bound from the id path
segment. -/
def idPathFields : Fields :=
  .cons (.mk "ID" true false [("path", "id")] .int) .nil

/-- A record embedding idPathFields anonymously - the path tag lives
only inside the embedded record. -/
def embedIdFields : Fields :=
  .cons (.mk "Inner" true true [] (.strukt idPathFields)) .nil

/-- A one-field record whose Token string field is bound from the
X-Token header. -/
def tokenFields : Fields :=
  .cons (.mk "Token" true false [("header", "X-Token")] .string) .nil

/-- A record embedding tokenFields anonymously - the header tag lives
only inside the embedded record. -/
def embedTokenFields : Fields :=
  .cons (.mk "Inner" true true [] (.strukt tokenFields)) .nil

/-! Helper lemmas. -/

/-- List-style induction for field lists (the generated recursor of the
mutual type package has several motives, so a single-motive principle
is stated here). -/
theorem fieldsInduction (motive : Fields → Prop) (hnil : motive .nil)
    (hcons : ∀ f t, motive t → motive (.cons f t)) : ∀ fs, motive fs
  | .nil => hnil
  | .cons f t => hcons f t (fieldsInduction motive hnil hcons t)

/-- invokeBusiness always makes exactly one response call. -/
theorem invokeBusiness_one_event (twoOutputs : Bool)
    (handler : Option Val → Val × Option RespErr) (arg : Option Val) :
    (invokeBusiness twoOutputs handler arg).1.length = 1 := by
  unfold invokeBusiness
  cases twoOutputs <;> rcases h : (handler arg).2 with _ | e <;> simp [h]

/-- zeroVals produces one value per field. -/
theorem zeroVals_length : ∀ fs : Fields, (zeroVals fs).length = fs.length := by
  intro fs
  induction fs using fieldsInduction with
  | hnil => rfl
  | hcons f t ih =>
    cases f with
    | mk name ex an tags fty => simp [zeroVals, Vals.length, Fields.length, ih]

/-- When the path loop succeeds on a value list of matching length, the
header and form counters it returns are headerTagsNum and
formTagsNum. -/
theorem bindPathLoop_counts (ctx : Ctx) :
    ∀ (fs : Fields) (vs0 vs : Vals) (hN fN : Nat),
      vs0.length = fs.length →
      bindPathLoop ctx fs vs0 = .ok (vs, hN, fN) →
      hN = headerTagsNum fs ∧ fN = formTagsNum fs := by
  intro fs
  induction fs using fieldsInduction with
  | hnil =>
    intro vs0 vs hN fN hlen h
    unfold bindPathLoop at h
    simp only [Except.ok.injEq, Prod.mk.injEq] at h
    exact ⟨h.2.1.symm, h.2.2.symm⟩
  | hcons f ft ih =>
    intro vs0 vs hN fN hlen h
    cases f with
    | mk name ex an tags fty =>
      cases vs0 with
      | nil => simp [Vals.length, Fields.length] at hlen
      | cons v0 vt =>
        have hlen2 : vt.length = ft.length := by
          simpa [Vals.length, Fields.length] using hlen
        unfold bindPathLoop at h
        by_cases hex : ex = false
        · rw [if_pos hex] at h
          rcases hrec : bindPathLoop ctx ft vt with e | p
          · rw [hrec] at h
            exact Except.noConfusion h
          · obtain ⟨vt2, hN2, fN2⟩ := p
            rw [hrec] at h
            simp only [Except.ok.injEq, Prod.mk.injEq] at h
            obtain ⟨ihh, ihf⟩ := ih vt vt2 hN2 fN2 hlen2 hrec
            subst hex
            simp [headerTagsNum, formTagsNum, Field.exported, Field.tag,
              ← h.2.1, ← h.2.2, ihh, ihf]
        · rw [if_neg hex] at h
          have hex2 : ex = true := by
            cases ex
            · exact absurd rfl hex
            · rfl
          subst hex2
          rcases hp : tags.lookup "path" with _ | key
          · simp only [hp] at h
            rcases hrec : bindPathLoop ctx ft vt with e | p
            · rw [hrec] at h
              exact Except.noConfusion h
            · obtain ⟨vt2, hN2, fN2⟩ := p
              rw [hrec] at h
              simp only [Except.ok.injEq, Prod.mk.injEq] at h
              obtain ⟨ihh, ihf⟩ := ih vt vt2 hN2 fN2 hlen2 hrec
              obtain ⟨hvs, hh, hf2⟩ := h
              constructor
              · simp only [headerTagsNum, Field.exported, Field.tag,
                  Bool.true_and]
                cases hhh : (List.lookup "header" tags).isSome <;>
                  simp [hhh] at hh ⊢ <;> omega
              · simp only [formTagsNum, Field.exported, Field.tag,
                  Bool.true_and]
                cases hff : (List.lookup "form" tags).isSome <;>
                  simp [hff] at hf2 ⊢ <;> omega
          · simp only [hp] at h
            rcases hsv : stringToVal ctx.ext (ctx.param key) fty with e | w
            · rw [hsv] at h
              exact Except.noConfusion h
            · rw [hsv] at h
              rcases hrec : bindPathLoop ctx ft vt with e | p
              · rw [hrec] at h
                exact Except.noConfusion h
              · obtain ⟨vt2, hN2, fN2⟩ := p
                rw [hrec] at h
                simp only [Except.ok.injEq, Prod.mk.injEq] at h
                obtain ⟨ihh, ihf⟩ := ih vt vt2 hN2 fN2 hlen2 hrec
                obtain ⟨hvs, hh, hf2⟩ := h
                constructor
                · simp only [headerTagsNum, Field.exported, Field.tag,
                    Bool.true_and]
                  cases hhh : (List.lookup "header" tags).isSome <;>
                    simp [hhh] at hh ⊢ <;> omega
                · simp only [formTagsNum, Field.exported, Field.tag,
                    Bool.true_and]
                  cases hff : (List.lookup "form" tags).isSome <;>
                    simp [hff] at hf2 ⊢ <;> omega

/-- When the path loop succeeds, every exported path-tagged field holds
exactly the value stringToVal produced for its path parameter. -/
theorem bindPathLoop_get (ctx : Ctx) :
    ∀ (fs : Fields) (vs0 vs : Vals) (hN fN : Nat) (i : Nat) (f : Field)
      (key : String),
      vs0.length = fs.length →
      bindPathLoop ctx fs vs0 = .ok (vs, hN, fN) →
      fs.get? i = some f → f.exported = true → f.tag "path" = some key →
      ∃ w, stringToVal ctx.ext (ctx.param key) f.ty = .ok w ∧
        vs.get? i = some w := by
  intro fs
  induction fs using fieldsInduction with
  | hnil =>
    intro vs0 vs hN fN i f key hlen h hf hex hkey
    simp [Fields.get?] at hf
  | hcons f0 ft ih =>
    intro vs0 vs hN fN i f key hlen h hf hex hkey
    cases f0 with
    | mk name ex an tags fty =>
      cases vs0 with
      | nil => simp [Vals.length, Fields.length] at hlen
      | cons v0 vt =>
        have hlen2 : vt.length = ft.length := by
          simpa [Vals.length, Fields.length] using hlen
        unfold bindPathLoop at h
        by_cases hexf : ex = false
        · rw [if_pos hexf] at h
          rcases hrec : bindPathLoop ctx ft vt with e | p
          · rw [hrec] at h
            exact Except.noConfusion h
          · obtain ⟨vt2, hN2, fN2⟩ := p
            rw [hrec] at h
            simp only [Except.ok.injEq, Prod.mk.injEq] at h
            obtain ⟨hvs, -, -⟩ := h
            cases i with
            | zero =>
              simp only [Fields.get?, Option.some.injEq] at hf
              rw [← hf] at hex
              simp only [Field.exported] at hex
              rw [hex] at hexf
              exact Bool.noConfusion hexf
            | succ n =>
              simp only [Fields.get?] at hf
              obtain ⟨w, hw, hg⟩ := ih vt vt2 hN2 fN2 n f key hlen2 hrec hf hex hkey
              exact ⟨w, hw, by rw [← hvs]; simpa [Vals.get?] using hg⟩
        · rw [if_neg hexf] at h
          have hex2 : ex = true := by
            cases ex
            · exact absurd rfl hexf
            · rfl
          subst hex2
          rcases hp : tags.lookup "path" with _ | pkey
          · simp only [hp] at h
            rcases hrec : bindPathLoop ctx ft vt with e | p
            · rw [hrec] at h
              exact Except.noConfusion h
            · obtain ⟨vt2, hN2, fN2⟩ := p
              rw [hrec] at h
              simp only [Except.ok.injEq, Prod.mk.injEq] at h
              obtain ⟨hvs, -, -⟩ := h
              cases i with
              | zero =>
                simp only [Fields.get?, Option.some.injEq] at hf
                rw [← hf] at hkey
                simp only [Field.tag, hp] at hkey
                exact Option.noConfusion hkey
              | succ n =>
                simp only [Fields.get?] at hf
                obtain ⟨w, hw, hg⟩ :=
                  ih vt vt2 hN2 fN2 n f key hlen2 hrec hf hex hkey
                exact ⟨w, hw, by rw [← hvs]; simpa [Vals.get?] using hg⟩
          · simp only [hp] at h
            rcases hsv : stringToVal ctx.ext (ctx.param pkey) fty with e | w0
            · rw [hsv] at h
              exact Except.noConfusion h
            · rw [hsv] at h
              rcases hrec : bindPathLoop ctx ft vt with e | p
              · rw [hrec] at h
                exact Except.noConfusion h
              · obtain ⟨vt2, hN2, fN2⟩ := p
                rw [hrec] at h
                simp only [Except.ok.injEq, Prod.mk.injEq] at h
                obtain ⟨hvs, -, -⟩ := h
                cases i with
                | zero =>
                  simp only [Fields.get?, Option.some.injEq] at hf
                  rw [← hf] at hkey ⊢
                  simp only [Field.tag, hp, Option.some.injEq] at hkey
                  subst hkey
                  refine ⟨w0, by simpa [Field.ty] using hsv, ?_⟩
                  rw [← hvs]
                  simp [Vals.get?]
                | succ n =>
                  simp only [Fields.get?] at hf
                  obtain ⟨w, hw, hg⟩ :=
                    ih vt vt2 hN2 fN2 n f key hlen2 hrec hf hex hkey
                  exact ⟨w, hw, by rw [← hvs]; simpa [Vals.get?] using hg⟩

/-- The query and header stage models never modify a field carrying a
tag of higher precedence. -/
theorem bindSourceVals_frame (coerce : String → Ty → Except String Val)
    (src : List (String × String)) (tagKey : String) (higher : List String) :
    ∀ (fs : Fields) (vs vs2 : Vals) (i : Nat) (f : Field) (hk : String),
      bindSourceVals coerce src tagKey higher fs vs = .ok vs2 →
      fs.get? i = some f → hk ∈ higher → (f.tag hk).isSome = true →
      vs2.get? i = vs.get? i := by
  intro fs
  induction fs using fieldsInduction with
  | hnil =>
    intro vs vs2 i f hk h hf hmem htag
    simp [Fields.get?] at hf
  | hcons f0 ft ih =>
    intro vs vs2 i f hk h hf hmem htag
    cases f0 with
    | mk name ex an tags fty =>
      cases vs with
      | nil =>
        unfold bindSourceVals at h
        simp only [Except.ok.injEq] at h
        rw [← h]
      | cons v0 vt =>
        unfold bindSourceVals at h
        rcases hhead : bindSourceField coerce src tagKey higher
            (.mk name ex an tags fty) v0 with e | v2
        · rw [hhead] at h
          exact Except.noConfusion h
        · rw [hhead] at h
          rcases hrec : bindSourceVals coerce src tagKey higher ft vt with
            e | vt2
          · rw [hrec] at h
            exact Except.noConfusion h
          · rw [hrec] at h
            simp only [Except.ok.injEq] at h
            subst h
            cases i with
            | zero =>
              simp only [Fields.get?, Option.some.injEq] at hf
              rw [← hf] at htag
              simp only [Field.tag] at htag
              have hany : higher.any (fun k => (tags.lookup k).isSome) = true :=
                List.any_eq_true.mpr ⟨hk, hmem, htag⟩
              have hkeep : bindSourceField coerce src tagKey higher
                  (.mk name ex an tags fty) v0 = .ok v0 := by
                unfold bindSourceField
                by_cases hexf : ex = false
                · rw [if_pos hexf]
                · rw [if_neg hexf, if_pos hany]
              rw [hkeep] at hhead
              simp only [Except.ok.injEq] at hhead
              simp [Vals.get?, hhead]
            | succ n =>
              simp only [Fields.get?] at hf
              simp only [Vals.get?]
              exact ih vt vt2 n f hk hrec hf hmem htag

/-- The body stage model never modifies a field carrying a path,
header or form tag. -/
theorem bindBodyVals_frame (doc : List (String × Val)) :
    ∀ (fs : Fields) (vs : Vals) (i : Nat) (f : Field),
      fs.get? i = some f →
      ((f.tag "path").isSome || (f.tag "header").isSome ||
        (f.tag "form").isSome) = true →
      (bindBodyVals doc fs vs).get? i = vs.get? i := by
  intro fs
  induction fs using fieldsInduction with
  | hnil =>
    intro vs i f hf htag
    simp [Fields.get?] at hf
  | hcons f0 ft ih =>
    intro vs i f hf htag
    cases f0 with
    | mk name ex an tags fty =>
      cases vs with
      | nil =>
        unfold bindBodyVals
        rfl
      | cons v0 vt =>
        unfold bindBodyVals
        cases i with
        | zero =>
          simp only [Fields.get?, Option.some.injEq] at hf
          rw [← hf] at htag
          simp only [Field.tag] at htag
          simp only [Vals.get?, Option.some.injEq]
          by_cases hexf : ex = false
          · simp [hexf]
          · have hex2 : ex = true := by
              cases ex
              · exact absurd rfl hexf
              · rfl
            subst hex2
            simp only [Bool.true_eq_false, if_false, ite_false]
            rw [if_pos htag]
        | succ n =>
          simp only [Fields.get?] at hf
          simp only [Vals.get?]
          exact ih vt n f hf htag

/-- The full stage trace of bindingFormValue on a struct type, as a
function of the outcomes of the individual stages: the path loop always
runs first; the query call happens only under a positive form count,
the header call only under a positive header count; the body call
happens whenever the earlier stages did not abort, and default
application follows whenever the body parse succeeded. -/
theorem bindingFormValue_trace_eq (ctx : Ctx) (fs : Fields) :
    (bindingFormValue ctx (.strukt fs)).2 =
      match bindPathLoop ctx fs (zeroVals fs) with
      | .error _ => [.path]
      | .ok (vs, hN, fN) =>
        .path ::
          (if 0 < fN then
            match bindSourceVals ctx.extCoerce ctx.query "form"
                ["path", "header"] fs vs with
            | .error _ => [.query]
            | .ok vsq =>
              .query ::
                (if 0 < hN then
                  match bindSourceVals ctx.extCoerce ctx.headers "header"
                      ["path"] fs vsq with
                  | .error _ => [.header]
                  | .ok _ =>
                    .header :: (match ctx.body with
                                | .error _ => [.body]
                                | .ok _ => [.body, .defaults])
                else (match ctx.body with
                      | .error _ => [.body]
                      | .ok _ => [.body, .defaults]))
          else
            (if 0 < hN then
              match bindSourceVals ctx.extCoerce ctx.headers "header"
                  ["path"] fs vs with
              | .error _ => [.header]
              | .ok _ =>
                .header :: (match ctx.body with
                            | .error _ => [.body]
                            | .ok _ => [.body, .defaults])
            else (match ctx.body with
                  | .error _ => [.body]
                  | .ok _ => [.body, .defaults]))) := by
  unfold bindingFormValue decodeStages queryOnward headerOnward bodyStage
  rcases hpl : bindPathLoop ctx fs (zeroVals fs) with e | ⟨vs, hN, fN⟩
  · simp
  · simp only []
    by_cases hf : 0 < fN
    · rw [if_pos hf, if_pos hf]
      rcases hq : bindSourceVals ctx.extCoerce ctx.query "form"
          ["path", "header"] fs vs with e | vsq
      · simp
      · simp only []
        by_cases hh : 0 < hN
        · rw [if_pos hh, if_pos hh]
          rcases hhd : bindSourceVals ctx.extCoerce ctx.headers "header"
              ["path"] fs vsq with e | vsh
          · simp
          · rcases hb : ctx.body with m | doc
            · simp
            · rcases hd : applyDefaultValues ctx.ext fs
                  (bindBodyVals doc fs vsh) with e | vs2 <;> simp [hd]
        · rw [if_neg hh, if_neg hh]
          rcases hb : ctx.body with m | doc
          · simp
          · rcases hd : applyDefaultValues ctx.ext fs
                (bindBodyVals doc fs vsq) with e | vs2 <;> simp [hd]
    · rw [if_neg hf, if_neg hf]
      by_cases hh : 0 < hN
      · rw [if_pos hh, if_pos hh]
        rcases hhd : bindSourceVals ctx.extCoerce ctx.headers "header"
            ["path"] fs vs with e | vsh
        · simp
        · rcases hb : ctx.body with m | doc
          · simp
          · rcases hd : applyDefaultValues ctx.ext fs
                (bindBodyVals doc fs vsh) with e | vs2 <;> simp [hd]
      · rw [if_neg hh, if_neg hh]
        rcases hb : ctx.body with m | doc
        · simp
        · rcases hd : applyDefaultValues ctx.ext fs
              (bindBodyVals doc fs vs) with e | vs2 <;> simp [hd]

/-- The query stage never runs when no exported top-level field carries
a form tag. -/
theorem no_query_of_formTagsNum_zero (ctx : Ctx) (fs : Fields)
    (h : formTagsNum fs = 0) :
    .query ∉ (bindingFormValue ctx (.strukt fs)).2 := by
  rw [bindingFormValue_trace_eq]
  rcases hpl : bindPathLoop ctx fs (zeroVals fs) with e | ⟨vs, hN, fN⟩
  · simp
  · obtain ⟨-, hfN⟩ := bindPathLoop_counts ctx fs (zeroVals fs) vs hN fN
      (zeroVals_length fs) hpl
    have hf0 : ¬0 < fN := by omega
    by_cases hh : 0 < hN
    · rcases hhd : bindSourceVals ctx.extCoerce ctx.headers "header"
          ["path"] fs vs with e | vsh <;>
        rcases hb : ctx.body with m | doc <;>
          simp [hf0, hh, hhd, hb]
    · rcases hb : ctx.body with m | doc <;> simp [hf0, hh, hb]

/-- The header stage never runs when no exported top-level field
carries a header tag. -/
theorem no_header_of_headerTagsNum_zero (ctx : Ctx) (fs : Fields)
    (h : headerTagsNum fs = 0) :
    .header ∉ (bindingFormValue ctx (.strukt fs)).2 := by
  rw [bindingFormValue_trace_eq]
  rcases hpl : bindPathLoop ctx fs (zeroVals fs) with e | ⟨vs, hN, fN⟩
  · simp
  · obtain ⟨hhN, -⟩ := bindPathLoop_counts ctx fs (zeroVals fs) vs hN fN
      (zeroVals_length fs) hpl
    have hh0 : ¬0 < hN := by omega
    by_cases hf : 0 < fN
    · rcases hq : bindSourceVals ctx.extCoerce ctx.query "form"
          ["path", "header"] fs vs with e | vsq <;>
        rcases hb : ctx.body with m | doc <;>
          simp [hf, hh0, hq, hb]
    · rcases hb : ctx.body with m | doc <;> simp [hf, hh0, hb]

/-! Claims. -/

/-- C10: DefaultResponseHandler.HandleError responds with HTTP status
400 when the error is a BindingError, 404 when the error message is
exactly record not found, 401 for unauthorized, 403 for forbidden, and
500 for every other error, always emitting a JSON body with status
error and the error message. -/
theorem handleError_status_mapping :
    (∀ inner, handleErrorResp (.bindingError inner) =
      (400, [("status", "error"), ("message", goErrMsg inner)])) ∧
    handleErrorResp (.plain "record not found") =
      (404, [("status", "error"), ("message", "record not found")]) ∧
    handleErrorResp (.plain "unauthorized") =
      (401, [("status", "error"), ("message", "unauthorized")]) ∧
    handleErrorResp (.plain "forbidden") =
      (403, [("status", "error"), ("message", "forbidden")]) ∧
    (∀ msg, msg ≠ "record not found" → msg ≠ "unauthorized" →
      msg ≠ "forbidden" →
      handleErrorResp (.plain msg) =
        (500, [("status", "error"), ("message", msg)])) := by
  refine ⟨fun inner => rfl, rfl, rfl, rfl, fun msg h1 h2 h3 => ?_⟩
  simp [handleErrorResp, h1, h2, h3]

/-- Witness for C10: a message outside the recognized set maps to
status 500 with the message passed through. -/
theorem handleError_status_mapping_witness :
    handleErrorResp (.plain "boom") =
      (500, [("status", "error"), ("message", "boom")]) :=
  handleError_status_mapping.2.2.2.2 "boom" (by decide) (by decide) (by decide)

/-- C7: for a pointer-typed field bound from a string source, an empty
or absent source value leaves the pointer nil with no allocation; but a
present value, far from allocating storage and setting the pointee,
makes stringToVal fail with the unsupported-conversion error: the kind
switch has no pointer case, so pointer targets fall through to the
default branch.  (The claim is refuted on its allocation half.) -/
theorem stringToVal_pointer_target :
    ∀ ext : Externals,
      stringToVal ext "" (.ptr .int) = .ok .nil ∧
      stringToVal ext "5" (.ptr .int) = .error (.unsupportedConversion "5") ∧
      stringToVal ext "John" (.ptr .string) =
        .error (.unsupportedConversion "John") :=
  fun _ => ⟨rfl, rfl, rfl⟩

/-- C8: integer targets.  The source parses with bit size 64 and then
writes through the truncating reflect setter, and the signed-kind case
list omits Int16.  Consequences proved here: a value representable in
the target type parses correctly (int and int64 cases); a 64-bit
overflow or non-digit input is an error; but an int16 target is
rejected as an unsupported conversion even for a representable value,
and a value overflowing a narrow target is silently truncated (300 as
int8 becomes 44, as uint8 becomes 44) instead of erroring.  (The claim
is refuted on the int16 and narrow-overflow halves.) -/
theorem stringToVal_integer_targets :
    ∀ ext : Externals,
      stringToVal ext "123" .int = .ok (.int 123) ∧
      stringToVal ext "-17" .int64 = .ok (.int (-17)) ∧
      stringToVal ext "250" .uint8 = .ok (.uint 250) ∧
      stringToVal ext "abc" .int = .error (.numError "abc") ∧
      stringToVal ext "9223372036854775808" .int64 =
        .error (.numError "9223372036854775808") ∧
      stringToVal ext "18446744073709551616" .uint64 =
        .error (.numError "18446744073709551616") ∧
      stringToVal ext "5" .int16 = .error (.unsupportedConversion "5") ∧
      stringToVal ext "300" .int8 = .ok (.int 44) ∧
      stringToVal ext "300" .uint8 = .ok (.uint 44) :=
  fun _ => ⟨rfl, rfl, rfl, rfl, rfl, rfl, rfl, rfl, rfl⟩

/-- C3 counterexample: a record with a path tag on an unsupported
(struct) type passes registration - checkHandlerShape accepts the
candidate, returning no error, because registration inspects only the
call shape - and the unsupported-type error then occurs while serving a
request: the path stage fails with the wrapped unsupported-conversion
error. -/
theorem shape_check_ignores_field_types :
    checkHandlerShape blobHandlerFunc = none ∧
    (bindingFormValue ctxPathX (.strukt blobPathFields)).1 =
      .error (.pathParam "id" (.unsupportedConversion "x")) :=
  ⟨rfl, rfl⟩

/-- C3 amended: registration validates only the call shape - any
record type is accepted regardless of its field tags and types - and a
path tag on an unsupported type instead surfaces per-request: the
closure reports it through HandleError as a BindingError, and the
business handler is never invoked. -/
theorem shape_check_only_signature :
    (∀ fs : Fields,
      checkHandlerShape
        { isFunc := true, params := [.ctxPtr, .val (.strukt fs)],
          results := [.errLike] } = none) ∧
    (bindingFormValue ctxPathX (.strukt blobPathFields)).1 =
      .error (.pathParam "id" (.unsupportedConversion "x")) ∧
    runClosure true false ctxPathX (.strukt blobPathFields) none
        (fun _ => (.str "", none)) =
      some ([.errorCall (.bindingError
          (.pathParam "id" (.unsupportedConversion "x")))], false) :=
  ⟨fun _ => rfl, rfl, rfl⟩

/-- C1 counterexample: a handler whose record consists of one exported
embedded field of non-struct type passes registration, and a request
with a well-formed empty body then panics inside default application
(reflect NumField on a non-struct value), so neither HandleError nor
HandleSuccess is invoked - the response handler is called zero times,
not exactly once. -/
theorem closure_panic_zero_calls :
    checkHandlerShape
      { isFunc := true, params := [.ctxPtr, .val (.strukt embedIntFields)],
        results := [.errLike] } = none ∧
    (bindingFormValue ctxPage3 (.strukt embedIntFields)).1 = .panicked ∧
    runClosure true false ctxPage3 (.strukt embedIntFields) none
      (fun _ => (.str "", none)) = none :=
  ⟨rfl, rfl, rfl⟩

/-- C1 amended: unless binding or default application panics (reachable
exactly through an exported embedded field of non-struct type, where
reflect NumField panics, the panic unwinds and no response operation is
invoked), the closure makes exactly one response-handler call per
request: a binding failure is reported through HandleError wrapped as a
BindingError with the handler never invoked; a validation failure is
reported unchanged with the handler never invoked; when binding and
validation pass the handler runs and its error goes to HandleError,
otherwise HandleSuccess receives its value (or no data for the
error-only shape). -/
theorem closure_response_dispatch :
    ∀ (hasRec twoOut : Bool) (ctx : Ctx) (rty : Ty)
      (vd : Option (Val → Option RespErr))
      (hd : Option Val → Val × Option RespErr),
      (∀ r, runClosure hasRec twoOut ctx rty vd hd = some r →
        r.1.length = 1) ∧
      (hasRec = true → (bindingFormValue ctx rty).1 = .panicked →
        runClosure hasRec twoOut ctx rty vd hd = none) ∧
      (∀ e, hasRec = true → (bindingFormValue ctx rty).1 = .error e →
        runClosure hasRec twoOut ctx rty vd hd =
          some ([.errorCall (.bindingError e)], false)) ∧
      (∀ form validate ve, hasRec = true →
        (bindingFormValue ctx rty).1 = .ok form → vd = some validate →
        validate form = some ve →
        runClosure hasRec twoOut ctx rty vd hd =
          some ([.errorCall ve], false)) ∧
      (∀ arg e, (hd arg).2 = some e →
        invokeBusiness twoOut hd arg = ([.errorCall e], true)) ∧
      (∀ arg, (hd arg).2 = none →
        invokeBusiness twoOut hd arg =
          ([.successCall (if twoOut then some (hd arg).1 else none)], true)) ∧
      (∀ form, hasRec = true → (bindingFormValue ctx rty).1 = .ok form →
        (vd = none ∨ ∃ validate, vd = some validate ∧ validate form = none) →
        runClosure hasRec twoOut ctx rty vd hd =
          some (invokeBusiness twoOut hd (some form))) ∧
      (hasRec = false →
        runClosure hasRec twoOut ctx rty vd hd =
          some (invokeBusiness twoOut hd none)) := by
  intro hasRec twoOut ctx rty vd hd
  refine ⟨?_, ?_, ?_, ?_, ?_, ?_, ?_, ?_⟩
  · intro r hr
    unfold runClosure at hr
    cases hasRec with
    | false =>
      simp only [Bool.false_eq_true, if_false, ite_false,
        Option.some.injEq] at hr
      subst hr
      exact invokeBusiness_one_event twoOut hd none
    | true =>
      cases hb : (bindingFormValue ctx rty).1 with
      | panicked => simp [hb] at hr
      | error e =>
        simp [hb] at hr
        subst hr
        simp
      | ok form =>
        cases vd with
        | none =>
          simp [hb] at hr
          subst hr
          exact invokeBusiness_one_event twoOut hd (some form)
        | some validate =>
          cases hv : validate form with
          | none =>
            simp [hb, hv] at hr
            subst hr
            exact invokeBusiness_one_event twoOut hd (some form)
          | some ve =>
            simp [hb, hv] at hr
            subst hr
            simp
  · intro hrec hb
    subst hrec
    simp [runClosure, hb]
  · intro e hrec hb
    subst hrec
    simp [runClosure, hb]
  · intro form validate ve hrec hb hvd hv
    subst hrec; subst hvd
    simp [runClosure, hb, hv]
  · intro arg e he
    cases twoOut <;> simp [invokeBusiness, he]
  · intro arg he
    cases twoOut <;> simp [invokeBusiness, he]
  · intro form hrec hb hval
    subst hrec
    rcases hval with h | ⟨validate, hvd, hv⟩
    · subst h
      simp [runClosure, hb]
    · subst hvd
      simp [runClosure, hb, hv]
  · intro hrec
    subst hrec
    simp [runClosure]

/-- The implementation loop agrees with the first-match description on
every non-empty layout list: when some layout parses, the loop returns
the value of the first one that does; when none parses, the loop
returns an error. -/
theorem tryTimeFormats_first_match (ext : Externals) (s : String) :
    ∀ fmts : List String, fmts ≠ [] →
      (∀ t, specTimeFirstMatch ext s fmts = some t →
        tryTimeFormats ext s fmts = .ok t) ∧
      (specTimeFirstMatch ext s fmts = none →
        ∃ e, tryTimeFormats ext s fmts = .error e) := by
  intro fmts
  induction fmts with
  | nil => intro h; exact absurd rfl h
  | cons fmt rest ih =>
    intro _
    constructor
    · intro t ht
      unfold specTimeFirstMatch at ht
      unfold tryTimeFormats
      rcases hp : ext.timeParse fmt s with e | t0
      · simp only [hp] at ht ⊢
        cases rest with
        | nil => simp [specTimeFirstMatch] at ht
        | cons f2 r2 => exact (ih (by simp)).1 t ht
      · simp only [hp, Option.some.injEq] at ht ⊢
        simp [ht]
    · intro hn
      unfold specTimeFirstMatch at hn
      unfold tryTimeFormats
      rcases hp : ext.timeParse fmt s with e | t0
      · simp only [hp] at hn ⊢
        cases rest with
        | nil => exact ⟨e, rfl⟩
        | cons f2 r2 => exact (ih (by simp)).2 hn
      · simp [hp] at hn

/-- C9: for a time.Time target on a non-empty string, stringToVal
tries the ordered layout list (RFC3339, RFC3339 with sub-second
precision, space-separated date-time, two literal UTC layouts,
date-only, time-only) and returns the value produced by the first
layout that parses; when no layout parses it returns the
invalid-time-format coercion error. -/
theorem stringToVal_time_ordered_formats :
    ∀ (ext : Externals) (s : String), s ≠ "" →
      (∀ t, specTimeFirstMatch ext s timeFormats = some t →
        stringToVal ext s .time = .ok (.time t)) ∧
      (specTimeFirstMatch ext s timeFormats = none →
        ∃ msg, stringToVal ext s .time =
          .error (.invalidTimeFormat s msg)) := by
  intro ext s hs
  have h := tryTimeFormats_first_match ext s timeFormats (by simp [timeFormats])
  constructor
  · intro t ht
    have he := h.1 t ht
    simp [stringToVal, hs, strConvertibleTo, tyKind, isTimeTy, he]
  · intro hn
    obtain ⟨e, he⟩ := h.2 hn
    exact ⟨e, by simp [stringToVal, hs, strConvertibleTo, tyKind, isTimeTy, he]⟩

/-- Witness for C9: with an external time parser accepting exactly the
date-only layout, the sixth layout in the list wins and its value is
returned. -/
theorem stringToVal_time_ordered_formats_witness :
    stringToVal extDateOnly "2023-05-06" .time = .ok (.time 42) :=
  (stringToVal_time_ordered_formats extDateOnly "2023-05-06"
    (by decide)).1 42 rfl

/-- Characterization of one regular (exported, non-anonymous) field
under applyDefaultValues: the field is rewritten through
setDefaultValue exactly when it has a default tag and its value is
zero, and is returned unchanged otherwise. -/
theorem applyDefaultField_regular (ext : Externals) (f : Field) (v v2 : Val)
    (hex : f.exported = true) (han : f.anonymous = false)
    (h : applyDefaultField ext f v = .ok v2) :
    (∃ d, f.tag "default" = some d ∧ isZero v = true ∧
      setDefaultValue ext v f.ty d f.name = .ok v2) ∨
    (v2 = v ∧ (f.tag "default" = none ∨ isZero v = false)) := by
  cases f with
  | mk name ex an tags fty =>
    simp only [Field.exported] at hex
    simp only [Field.anonymous] at han
    subst hex; subst han
    unfold applyDefaultField at h
    simp only [show (true = false) = False by simp, if_false,
      Bool.false_eq_true, ite_false] at h
    rcases hd : tags.lookup "default" with _ | d
    · simp only [hd, PRes.ok.injEq] at h
      exact .inr ⟨h.symm, .inl (by simp [Field.tag, hd])⟩
    · simp only [hd] at h
      by_cases hz : isZero v = false
      · rw [if_pos hz] at h
        exact .inr ⟨(PRes.ok.inj h).symm, .inr hz⟩
      · rw [if_neg hz] at h
        have hz2 : isZero v = true := by
          cases hzz : isZero v
          · exact absurd hzz hz
          · rfl
        rcases hs : setDefaultValue ext v fty d name with e | w
        · simp only [hs] at h
          exact PRes.noConfusion h
        · simp only [hs, PRes.ok.injEq] at h
          exact .inl ⟨d, by simp [Field.tag, hd], hz2,
            by simp [Field.ty, Field.name, hs, h]⟩

/-- C2: applyDefaultValues sets a regular field from its default
literal exactly when the field carries a default tag and its value
after the source stages is the zero value of its type; an explicitly
supplied non-zero value is never overwritten; and a nil pointer field
carrying a default is allocated with its pointee set to the coerced
literal. -/
theorem applyDefaults_iff_zero_and_tagged :
    ∀ (ext : Externals) (fs : Fields) (vs vs2 : Vals),
      applyDefaultValues ext fs vs = .ok vs2 →
      ∀ i f v, fs.get? i = some f → vs.get? i = some v →
        f.exported = true → f.anonymous = false →
        ∃ v2, vs2.get? i = some v2 ∧
          ((∃ d, f.tag "default" = some d ∧ isZero v = true ∧
              setDefaultValue ext v f.ty d f.name = .ok v2) ∨
           (v2 = v ∧ (f.tag "default" = none ∨ isZero v = false))) ∧
          (∀ elemTy d w, f.ty = .ptr elemTy → v = .nil →
            f.tag "default" = some d →
            setDefaultValue ext (zeroVal elemTy) elemTy d f.name = .ok w →
            v2 = .ptr w) := by
  intro ext fs
  induction fs using fieldsInduction with
  | hnil =>
    intro vs vs2 h i f v hf hv hex han
    simp [Fields.get?] at hf
  | hcons f0 ft ih =>
    intro vs vs2 h i f v hf hv hex han
    cases vs with
    | nil => cases i <;> simp [Vals.get?] at hv
    | cons v0 vt =>
      unfold applyDefaultValues at h
      rcases h0 : applyDefaultField ext f0 v0 with v0n | e | -
      · rw [h0] at h
        rcases h1 : applyDefaultValues ext ft vt with vt2 | e | -
        · rw [h1] at h
          simp only [PRes.ok.injEq] at h
          subst h
          cases i with
          | zero =>
            simp only [Fields.get?, Option.some.injEq] at hf
            simp only [Vals.get?, Option.some.injEq] at hv
            rw [← hf] at hex han ⊢
            rw [← hv]
            refine ⟨v0n, by simp [Vals.get?], ?_, ?_⟩
            · exact applyDefaultField_regular ext f0 v0 v0n hex han h0
            · intro elemTy d w hty hvnil hd hw
              rcases applyDefaultField_regular ext f0 v0 v0n hex han h0 with
                ⟨d1, hd1, -, hs1⟩ | ⟨-, hnone | hnz⟩
              · have hdd : d1 = d := by
                  rw [hd1] at hd
                  exact Option.some.inj hd
                subst hdd
                rw [hty, hvnil] at hs1
                unfold setDefaultValue at hs1
                rw [hw] at hs1
                simp only [Except.ok.injEq] at hs1
                exact hs1.symm
              · rw [hnone] at hd
                exact Option.noConfusion hd
              · rw [hvnil] at hnz
                simp [isZero] at hnz
          | succ n =>
            simp only [Fields.get?] at hf
            simp only [Vals.get?] at hv
            obtain ⟨v2, hv2, hchar, hptr⟩ :=
              ih vt vt2 h1 n f v hf hv hex han
            exact ⟨v2, by simp [Vals.get?, hv2], hchar, hptr⟩
        · rw [h1] at h
          simp at h
        · rw [h1] at h
          simp at h
      · rw [h0] at h
        simp at h
      · rw [h0] at h
        simp at h

/-- Witness for C2: on the concrete three-field record, the default
fills the zero-valued string, leaves the explicitly supplied int
alone, and allocates the nil bool pointer to point at true. -/
theorem applyDefaults_iff_zero_and_tagged_witness :
    applyDefaultValues extTrivial defaultsFields defaultsVsIn =
      .ok defaultsVsOut ∧
    Vals.get? defaultsVsOut 2 = some (.ptr (.bool true)) := by
  refine ⟨by rfl, ?_⟩
  obtain ⟨v2, hv2, -, hptr⟩ :=
    applyDefaults_iff_zero_and_tagged extTrivial defaultsFields defaultsVsIn
      defaultsVsOut (by rfl) 2
      (.mk "Act" true false [("default", "true")] (.ptr .bool)) .nil
      (by rfl) (by rfl) (by rfl) (by rfl)
  have hw : v2 = .ptr (.bool true) :=
    hptr .bool "true" (.bool true) rfl rfl (by rfl) (by rfl)
  rw [hv2, hw]

/-- C4: bindingFormValue executes its stages in a fixed order, the path
loop first; the query call is made only under a positive form tag count
and never when formTagsNum is zero; the header call only under a
positive header tag count; and the body bind is attempted whenever the
earlier stages did not abort, with no condition on any field being
body-bound. -/
theorem bindingStages_order_and_triggers :
    ∀ (ctx : Ctx) (fs : Fields),
      ((bindingFormValue ctx (.strukt fs)).2.head? = some .path) ∧
      ((bindingFormValue ctx (.strukt fs)).2.Sublist
        [.path, .query, .header, .body, .defaults]) ∧
      (formTagsNum fs = 0 → .query ∉ (bindingFormValue ctx (.strukt fs)).2) ∧
      (headerTagsNum fs = 0 →
        .header ∉ (bindingFormValue ctx (.strukt fs)).2) ∧
      (∀ vs hN fN, bindPathLoop ctx fs (zeroVals fs) = .ok (vs, hN, fN) →
        (0 < fN → .query ∈ (bindingFormValue ctx (.strukt fs)).2) ∧
        (∀ vsq, ((0 < fN ∧ bindSourceVals ctx.extCoerce ctx.query "form"
              ["path", "header"] fs vs = .ok vsq) ∨ (fN = 0 ∧ vsq = vs)) →
          (0 < hN → .header ∈ (bindingFormValue ctx (.strukt fs)).2) ∧
          (∀ vsh, ((0 < hN ∧ bindSourceVals ctx.extCoerce ctx.headers
                "header" ["path"] fs vsq = .ok vsh) ∨
              (hN = 0 ∧ vsh = vsq)) →
            .body ∈ (bindingFormValue ctx (.strukt fs)).2))) := by
  intro ctx fs
  refine ⟨?_, ?_, ?_, ?_, ?_⟩
  · rw [bindingFormValue_trace_eq]
    rcases hpl : bindPathLoop ctx fs (zeroVals fs) with e | ⟨vs, hN, fN⟩ <;>
      simp
  · rw [bindingFormValue_trace_eq]
    rcases hpl : bindPathLoop ctx fs (zeroVals fs) with e | ⟨vs, hN, fN⟩
    · simp
    · by_cases hf : 0 < fN
      · rcases hq : bindSourceVals ctx.extCoerce ctx.query "form"
            ["path", "header"] fs vs with e | vsq
        · simp [hf, hq]
        · by_cases hh : 0 < hN
          · rcases hhd : bindSourceVals ctx.extCoerce ctx.headers "header"
                ["path"] fs vsq with e | vsh <;>
              rcases hb : ctx.body with m | doc <;>
                simp [hf, hq, hh, hhd, hb]
          · rcases hb : ctx.body with m | doc <;>
              simp [hf, hq, hh, hb]
      · by_cases hh : 0 < hN
        · rcases hhd : bindSourceVals ctx.extCoerce ctx.headers "header"
              ["path"] fs vs with e | vsh <;>
            rcases hb : ctx.body with m | doc <;>
              simp [hf, hh, hhd, hb]
        · rcases hb : ctx.body with m | doc <;>
            simp [hf, hh, hb]
  · exact no_query_of_formTagsNum_zero ctx fs
  · exact no_header_of_headerTagsNum_zero ctx fs
  · intro vs hN fN hpl
    constructor
    · intro hf
      rw [bindingFormValue_trace_eq]
      rcases hq : bindSourceVals ctx.extCoerce ctx.query "form"
          ["path", "header"] fs vs with e | vsq <;>
        simp [hpl, hf, hq]
    · intro vsq hvsq
      constructor
      · intro hh
        rw [bindingFormValue_trace_eq]
        rcases hvsq with ⟨hf, hq⟩ | ⟨hf0, hveq⟩
        · rcases hhd : bindSourceVals ctx.extCoerce ctx.headers "header"
              ["path"] fs vsq with e | vsh <;>
            simp [hpl, hf, hq, hh, hhd]
        · subst hveq
          have hnf : ¬0 < fN := by omega
          rcases hhd : bindSourceVals ctx.extCoerce ctx.headers "header"
              ["path"] fs vsq with e | vsh <;>
            simp [hpl, hnf, hh, hhd]
      · intro vsh hvsh
        rw [bindingFormValue_trace_eq]
        rcases hvsq with ⟨hf, hq⟩ | ⟨hf0, hveq⟩ <;>
          rcases hvsh with ⟨hh, hhd⟩ | ⟨hh0, hheq⟩
        · rcases hb : ctx.body with m | doc <;>
            simp [hpl, hf, hq, hh, hhd, hb]
        · subst hheq
          have hnh : ¬0 < hN := by omega
          rcases hb : ctx.body with m | doc <;>
            simp [hpl, hf, hq, hnh, hb]
        · subst hveq
          have hnf : ¬0 < fN := by omega
          rcases hb : ctx.body with m | doc <;>
            simp [hpl, hnf, hh, hhd, hb]
        · subst hveq; subst hheq
          have hnf : ¬0 < fN := by omega
          have hnh : ¬0 < hN := by omega
          rcases hb : ctx.body with m | doc <;>
            simp [hpl, hnf, hnh, hb]

/-- Witness for C4: on a request with one form-tagged and one
header-tagged field, the trace starts with the path stage and contains
the query and body stages. -/
theorem bindingStages_order_and_triggers_witness :
    (bindingFormValue ctxQH (.strukt qhFields)).2.head? = some .path ∧
    .query ∈ (bindingFormValue ctxQH (.strukt qhFields)).2 ∧
    .body ∈ (bindingFormValue ctxQH (.strukt qhFields)).2 := by
  have h := bindingStages_order_and_triggers ctxQH qhFields
  have h5 := h.2.2.2.2 (.cons (.int 0) (.cons (.str "") .nil)) 1 1 (by rfl)
  refine ⟨h.1, h5.1 (by decide), ?_⟩
  have h6 := h5.2 (.cons (.int 3) (.cons (.str "") .nil))
    (Or.inl ⟨by decide, by rfl⟩)
  exact h6.2 (.cons (.int 3) (.cons (.str "t") .nil))
    (Or.inl ⟨by decide, by rfl⟩)

/-- From the header stage on, a path-tagged field is left untouched:
the value decoded for it after header and body binding is its value
before them. -/
theorem headerOnward_path_frame (ctx : Ctx) (fs : Fields) (vsIn vs : Vals)
    (hN : Nat) (i : Nat) (f : Field) (key : String)
    (hdec : (headerOnward ctx fs vsIn hN).1 = .ok vs)
    (hf : fs.get? i = some f) (hkey : f.tag "path" = some key) :
    vs.get? i = vsIn.get? i := by
  unfold headerOnward at hdec
  by_cases hh : 0 < hN
  · rw [if_pos hh] at hdec
    rcases hhd : bindSourceVals ctx.extCoerce ctx.headers "header" ["path"]
        fs vsIn with e | vsh
    · simp [hhd] at hdec
    · simp only [hhd] at hdec
      unfold bodyStage at hdec
      rcases hb : ctx.body with m | doc
      · simp [hb] at hdec
      · simp only [hb, Except.ok.injEq] at hdec
        have h1 := bindBodyVals_frame doc fs vsh i f hf (by simp [hkey])
        have h2 := bindSourceVals_frame ctx.extCoerce ctx.headers "header"
          ["path"] fs vsIn vsh i f "path" hhd hf (by simp) (by simp [hkey])
        rw [← hdec, h1, h2]
  · rw [if_neg hh] at hdec
    unfold bodyStage at hdec
    rcases hb : ctx.body with m | doc
    · simp [hb] at hdec
    · simp only [hb, Except.ok.injEq] at hdec
      have h1 := bindBodyVals_frame doc fs vsIn i f hf (by simp [hkey])
      rw [← hdec, h1]

/-- C5: a field carrying a path tag, once set during the path stage, is
never modified by the later query, header or body stages: whenever the
four source stages succeed, the decoded value of an exported
path-tagged field is exactly the value stringToVal produced from its
path parameter. -/
theorem pathField_not_modified_by_later_stages :
    ∀ (ctx : Ctx) (fs : Fields) (vs : Vals) (i : Nat) (f : Field)
      (key : String) (v : Val),
      (decodeStages ctx fs).1 = .ok vs →
      fs.get? i = some f → f.exported = true → f.tag "path" = some key →
      vs.get? i = some v →
      stringToVal ctx.ext (ctx.param key) f.ty = .ok v := by
  intro ctx fs vs i f key v hdec hf hex hkey hv
  unfold decodeStages at hdec
  rcases hpl : bindPathLoop ctx fs (zeroVals fs) with e | ⟨vs1, hN, fN⟩
  · simp [hpl] at hdec
  · simp only [hpl] at hdec
    obtain ⟨w, hw, hg⟩ := bindPathLoop_get ctx fs (zeroVals fs) vs1 hN fN i
      f key (zeroVals_length fs) hpl hf hex hkey
    unfold queryOnward at hdec
    by_cases hfp : 0 < fN
    · rw [if_pos hfp] at hdec
      rcases hq : bindSourceVals ctx.extCoerce ctx.query "form"
          ["path", "header"] fs vs1 with e | vsq
      · simp [hq] at hdec
      · simp only [hq] at hdec
        have hframe1 := headerOnward_path_frame ctx fs vsq vs hN i f key
          hdec hf hkey
        have hframe2 := bindSourceVals_frame ctx.extCoerce ctx.query "form"
          ["path", "header"] fs vs1 vsq i f "path" hq hf (by simp)
          (by simp [hkey])
        rw [hframe1, hframe2, hg] at hv
        rw [hw, Option.some.inj hv]
    · rw [if_neg hfp] at hdec
      have hframe1 := headerOnward_path_frame ctx fs vs1 vs hN i f key
        hdec hf hkey
      rw [hframe1, hg] at hv
      rw [hw, Option.some.inj hv]

/-- Witness for C5: on a request binding id 7 from the path and a name
from the body, the decoded ID field is exactly the path-stage value. -/
theorem pathField_not_modified_witness :
    stringToVal ctxIdName.ext (ctxIdName.param "id")
      (Field.mk "ID" true false [("path", "id")] .int).ty =
      .ok (.int 7) :=
  pathField_not_modified_by_later_stages ctxIdName idNameFields
    (.cons (.int 7) (.cons (.str "Bob") .nil)) 0
    (.mk "ID" true false [("path", "id")] .int) "id" (.int 7)
    (by rfl) (by rfl) (by rfl) (by rfl) (by rfl)

/-- C6 counterexample: with the same request data, a source tag
declared inside an embedded record is not honored as if it were
declared directly on the enclosing record.  With the query parameter
page set to 3, a form tag inside the embedded record leaves the query
stage untriggered and Page decodes to zero, while the flat record
decodes 3; with the path segment id set to 7, a path tag inside the
embedded record is never bound and ID decodes to zero, while the flat
record decodes 7; with the X-Token header set, a header tag inside the
embedded record leaves the header stage untriggered and Token decodes
empty, while the flat record decodes it; and a nil pointer to an
embedded record whose fields carry defaults is skipped by
applyDefaultValues, not allocated before recursing. -/
theorem embedded_not_flattened_counterexample :
    (bindingFormValue ctxPage3 (.strukt embedPageFields)).1 =
      .ok (.strukt (.cons (.strukt (.cons (.int 0) .nil)) .nil)) ∧
    (bindingFormValue ctxPage3 (.strukt pageFields)).1 =
      .ok (.strukt (.cons (.int 3) .nil)) ∧
    (bindingFormValue ctxIdName (.strukt embedIdFields)).1 =
      .ok (.strukt (.cons (.strukt (.cons (.int 0) .nil)) .nil)) ∧
    (bindingFormValue ctxIdName (.strukt idPathFields)).1 =
      .ok (.strukt (.cons (.int 7) .nil)) ∧
    (bindingFormValue ctxQH (.strukt embedTokenFields)).1 =
      .ok (.strukt (.cons (.strukt (.cons (.str "") .nil)) .nil)) ∧
    (bindingFormValue ctxQH (.strukt tokenFields)).1 =
      .ok (.strukt (.cons (.str "t") .nil)) ∧
    applyDefaultValues extTrivial
      (.cons (.mk "Pagination" true true []
        (.ptr (.strukt pageDefFields))) .nil)
      (.cons .nil .nil) = .ok (.cons .nil .nil) :=
  ⟨by rfl, by rfl, by rfl, by rfl, by rfl, by rfl, by rfl⟩

/-- C6 amended: body binding flattens an embedded record against the
same document; default application recurses into an embedded
sub-record, both directly and through a non-nil pointer, wrapping
inner errors with the embedded-record prefix, but skips a nil embedded
pointer without allocating it; a path tag inside an embedded record is
never bound by the path stage, which leaves such a record at its zero
value; and source tags inside an embedded record do not count toward
the query and header stage triggers, so a record whose only form or
header tags sit inside an embedded record never runs the query or the
header stage. -/
theorem embedded_flattening_amended :
    (∀ (doc : List (String × Val)) (name : String) (ifs rest : Fields)
        (ivs vt : Vals),
      bindBodyVals doc (.cons (.mk name true true [] (.strukt ifs)) rest)
          (.cons (.strukt ivs) vt) =
        .cons (.strukt (bindBodyVals doc ifs ivs))
          (bindBodyVals doc rest vt)) ∧
    (∀ (ext : Externals) (name : String) (tags : List (String × String))
        (ifs : Fields) (ivs ivs2 : Vals),
      applyDefaultValues ext ifs ivs = .ok ivs2 →
      applyDefaultValues ext
          (.cons (.mk name true true tags (.strukt ifs)) .nil)
          (.cons (.strukt ivs) .nil) =
        .ok (.cons (.strukt ivs2) .nil)) ∧
    (∀ (ext : Externals) (name : String) (tags : List (String × String))
        (ifs : Fields) (ivs ivs2 : Vals),
      applyDefaultValues ext ifs ivs = .ok ivs2 →
      applyDefaultValues ext
          (.cons (.mk name true true tags (.ptr (.strukt ifs))) .nil)
          (.cons (.ptr (.strukt ivs)) .nil) =
        .ok (.cons (.ptr (.strukt ivs2)) .nil)) ∧
    (∀ (ext : Externals) (name : String) (tags : List (String × String))
        (ity : Ty) (rest : Fields) (vt vt2 : Vals),
      applyDefaultValues ext rest vt = .ok vt2 →
      applyDefaultValues ext
          (.cons (.mk name true true tags (.ptr ity)) rest) (.cons .nil vt) =
        .ok (.cons .nil vt2)) ∧
    (∀ (ext : Externals) (name : String) (tags : List (String × String))
        (ifs : Fields) (ivs : Vals) (e : GoErr),
      applyDefaultValues ext ifs ivs = .error e →
      applyDefaultValues ext
          (.cons (.mk name true true tags (.strukt ifs)) .nil)
          (.cons (.strukt ivs) .nil) =
        .error (.embeddedStruct name e)) ∧
    (∀ (ctx : Ctx) (name : String) (ifs : Fields),
      bindPathLoop ctx (.cons (.mk name true true [] (.strukt ifs)) .nil)
          (zeroVals (.cons (.mk name true true [] (.strukt ifs)) .nil)) =
        .ok (.cons (.strukt (zeroVals ifs)) .nil, 0, 0)) ∧
    (∀ (name : String) (ity : Ty) (rest : Fields) (ex an : Bool),
      formTagsNum (.cons (.mk name ex an [] ity) rest) = formTagsNum rest ∧
      headerTagsNum (.cons (.mk name ex an [] ity) rest) =
        headerTagsNum rest) ∧
    (∀ (ctx : Ctx) (name : String) (ifs : Fields),
      .query ∉ (bindingFormValue ctx
        (.strukt (.cons (.mk name true true [] (.strukt ifs)) .nil))).2) ∧
    (∀ (ctx : Ctx) (name : String) (ifs : Fields),
      .header ∉ (bindingFormValue ctx
        (.strukt (.cons (.mk name true true [] (.strukt ifs)) .nil))).2) := by
  refine ⟨?_, ?_, ?_, ?_, ?_, ?_, ?_, ?_, ?_⟩
  · intro doc name ifs rest ivs vt
    rw [bindBodyVals]
    rfl
  · intro ext name tags ifs ivs ivs2 h
    rw [applyDefaultValues]
    rw [show applyDefaultField ext (.mk name true true tags (.strukt ifs))
        (.strukt ivs) =
      (match applyDefaultValues ext ifs ivs with
       | .panicked => .panicked
       | .error e => .error (.embeddedStruct name e)
       | .ok x => .ok (.strukt x) : PRes Val) by
      rw [applyDefaultField]; rfl]
    rw [h]
    rfl
  · intro ext name tags ifs ivs ivs2 h
    rw [applyDefaultValues]
    rw [show applyDefaultField ext
        (.mk name true true tags (.ptr (.strukt ifs))) (.ptr (.strukt ivs)) =
      (match applyDefaultValues ext ifs ivs with
       | .panicked => .panicked
       | .error e => .error (.embeddedStruct name e)
       | .ok x => .ok (.ptr (.strukt x)) : PRes Val) by
      rw [applyDefaultField]; rfl]
    rw [h]
    rfl
  · intro ext name tags ity rest vt vt2 h
    rw [applyDefaultValues]
    rw [show applyDefaultField ext (.mk name true true tags (.ptr ity)) .nil =
      (.ok .nil : PRes Val) by rw [applyDefaultField]; rfl]
    simp [h]
  · intro ext name tags ifs ivs e h
    rw [applyDefaultValues]
    rw [show applyDefaultField ext (.mk name true true tags (.strukt ifs))
        (.strukt ivs) =
      (match applyDefaultValues ext ifs ivs with
       | .panicked => .panicked
       | .error e => .error (.embeddedStruct name e)
       | .ok x => .ok (.strukt x) : PRes Val) by
      rw [applyDefaultField]; rfl]
    rw [h]
  · intro ctx name ifs
    rw [show zeroVals (.cons (.mk name true true [] (.strukt ifs)) .nil) =
      .cons (.strukt (zeroVals ifs)) .nil by rw [zeroVals, zeroVal, zeroVals]]
    rw [bindPathLoop, bindPathLoop]
    rfl
  · intro name ity rest ex an
    constructor <;> simp [formTagsNum, headerTagsNum, Field.exported,
      Field.tag, List.lookup]
  · intro ctx name ifs
    exact no_query_of_formTagsNum_zero ctx _ (by
      simp [formTagsNum, Field.exported, Field.tag, List.lookup])
  · intro ctx name ifs
    exact no_header_of_headerTagsNum_zero ctx _ (by
      simp [headerTagsNum, Field.exported, Field.tag, List.lookup])

/-- Witness for C6: the amended facts evaluated on concrete embedded
records - the body stage flattens an embedded Base record against the
parsed document, defaults do recurse into a directly embedded record,
and the page request never reaches the query stage. -/
theorem embedded_flattening_amended_witness :
    bindBodyVals [("name", .str "Bob")]
      (.cons (.mk "Base" true true [] (.strukt idNameFields)) .nil)
      (.cons (.strukt (.cons (.int 7) (.cons (.str "") .nil))) .nil) =
      .cons (.strukt (bindBodyVals [("name", .str "Bob")] idNameFields
        (.cons (.int 7) (.cons (.str "") .nil)))) .nil ∧
    applyDefaultValues extTrivial
      (.cons (.mk "Pagination" true true [] (.strukt pageDefFields)) .nil)
      (.cons (.strukt (.cons (.int 0) .nil)) .nil) =
      .ok (.cons (.strukt (.cons (.int 1) .nil)) .nil) ∧
    .query ∉ (bindingFormValue ctxPage3 (.strukt embedPageFields)).2 :=
  ⟨embedded_flattening_amended.1 [("name", .str "Bob")] "Base" idNameFields
      .nil (.cons (.int 7) (.cons (.str "") .nil)) .nil,
   embedded_flattening_amended.2.1 extTrivial "Pagination" [] pageDefFields
      (.cons (.int 0) .nil) (.cons (.int 1) .nil) (by rfl),
   embedded_flattening_amended.2.2.2.2.2.2.2.1 ctxPage3 "Pagination"
      pageFields⟩

/-- Witness for C1 (amended): on a request whose binding fails with an
unsupported path parameter type, the closure reports exactly the
wrapped BindingError and the handler is not invoked; on the embedded
non-struct record the panic yields no response call. -/
theorem closure_response_dispatch_witness :
    runClosure true true ctxPathX (.strukt blobPathFields) none
        (fun _ => (.str "", none)) =
      some ([.errorCall (.bindingError
          (.pathParam "id" (.unsupportedConversion "x")))], false) ∧
    runClosure true true ctxPage3 (.strukt embedIntFields) none
        (fun _ => (.str "", none)) = none :=
  ⟨(closure_response_dispatch true true ctxPathX (.strukt blobPathFields)
      none (fun _ => (.str "", none))).2.2.1
    (.pathParam "id" (.unsupportedConversion "x")) rfl rfl,
   (closure_response_dispatch true true ctxPage3 (.strukt embedIntFields)
      none (fun _ => (.str "", none))).2.1 rfl rfl⟩

end GinBinding
